import Mathlib

/-!
Shallow embedding of the file-storage engine of `alx-files_manager`
(src/controllers/FilesController.js, src/controllers/AppController.js —
the latter also holds UsersController — and src/routes/index.js).

The controllers call into `utils/file`, `utils/user` and `utils/basic`,
which are not part of the provided sources; those functions are modelled
from the specification (each such definition carries a doc comment
starting `Modelled from the spec:`).  Everything else is translated
directly from the JavaScript source.

External collaborators (MongoDB collections, the local disk, the Bull
queues, SHA1) are represented as explicit values threaded through the
functions: collections are lists, the disk is an association list from
local path to content, a queue interaction is the list of job payloads
the request enqueues, and SHA1 is an abstract `String → String`
parameter.
-/

/-- The three admissible values of a File's `type` field. -/
inductive FType where
  | folder
  | file
  | image
deriving DecidableEq

/-- A File's `parentId`: `0` (the implicit root) or a reference to another
File, stored as that file's id string. -/
inductive PId where
  | root
  | node (s : String)
deriving DecidableEq

/-- A document of the `files` collection (File Metadata Store).
`localPath` is `none` for folders. -/
structure File where
  id : String
  userId : String
  name : String
  type : FType
  isPublic : Bool
  parentId : PId
  localPath : Option String
deriving DecidableEq

/-- A document of the `users` collection (Identity Store). -/
structure User where
  id : String
  email : String
  passwordHash : String
deriving DecidableEq

/-- The externally visible metadata shape of a File (spec section 6:
`{ id, userId, name, type, isPublic, parentId }`, never `localPath`). -/
structure FileDoc where
  id : String
  userId : String
  name : String
  type : FType
  isPublic : Bool
  parentId : PId
deriving DecidableEq

/-- The body of a response, as the controllers send it. -/
inductive RBody where
  | err (msg : String)
  | doc (f : FileDoc)
  | docs (fs : List FileDoc)
  | raw (data : String)
  | userOut (id : String) (email : String)
deriving DecidableEq

/-- A response: HTTP status code plus body. -/
structure Resp where
  status : Nat
  body : RBody
deriving DecidableEq

/-- A job payload placed on the Bull `fileQueue`.  The source enqueues
`{}` (both fields absent), `{ userId }` and `{ fileId, userId }`. -/
structure FileJob where
  fileId : Option String
  userId : Option String
deriving DecidableEq

/-- A job payload placed on the Bull `userQueue`: `{}` or `{ userId }`. -/
structure UserJob where
  userId : Option String
deriving DecidableEq

/-- The on-disk content store: local path to stored bytes (kept as a
string of the decoded content). -/
abbrev Disk := List (String × String)

/-- JavaScript truthiness of an optional string field: `undefined` and
the empty string are falsy. -/
def jsFalsyStr : Option String → Bool
  | none => true
  | some s => s == ""

/-- The value of a JS number: an exact scaled decimal `m · 10^e`, or one
of the two infinities.  NaN is represented as `none` at the
`Option JsNum` level.  The scaled decimal is exact where IEEE-754
doubles round; the literals this development evaluates are all exactly
representable, where the two semantics agree. -/
inductive JsNum where
  | num (m : Int) (e : Int)
  | posInf
  | negInf
deriving DecidableEq

/-- Unary minus on a JS number. -/
def JsNum.negate : JsNum → JsNum
  | num m e => num (-m) e
  | posInf => negInf
  | negInf => posInf

/-- Whether the scaled decimal `m · 10^e` is an integer. -/
def scaledIsInt (m e : Int) : Bool :=
  0 ≤ e ∨ m % ((10 ^ (-e).toNat : Nat) : Int) = 0

/-- The integer value of the scaled decimal `m · 10^e`, meaningful when
`scaledIsInt m e`. -/
def scaledToInt (m e : Int) : Int :=
  if 0 ≤ e then m * ((10 ^ e.toNat : Nat) : Int)
  else m / ((10 ^ (-e).toNat : Nat) : Int)

/-- ASCII whitespace trimmed by JS string-to-number conversion
(space, tab, LF, VT, FF, CR). -/
def jsWs (c : Char) : Bool :=
  c.toNat = 32 ∨ c.toNat = 9 ∨ c.toNat = 10 ∨ c.toNat = 11 ∨ c.toNat = 12 ∨ c.toNat = 13

/-- An all-digit character list read as a decimal natural. -/
def decDigitsVal (cs : List Char) : Nat :=
  cs.foldl (fun a c => a * 10 + (c.toNat - 48)) 0

/-- The value of a hexadecimal digit, if the character is one. -/
def hexDigit? (c : Char) : Option Nat :=
  if c.isDigit then some (c.toNat - 48)
  else if 97 ≤ c.toNat ∧ c.toNat ≤ 102 then some (c.toNat - 87)
  else if 65 ≤ c.toNat ∧ c.toNat ≤ 70 then some (c.toNat - 55)
  else none

/-- The value of an octal digit, if the character is one. -/
def octDigit? (c : Char) : Option Nat :=
  if 48 ≤ c.toNat ∧ c.toNat ≤ 55 then some (c.toNat - 48) else none

/-- The value of a binary digit, if the character is one. -/
def binDigit? (c : Char) : Option Nat :=
  if c.toNat = 48 then some 0 else if c.toNat = 49 then some 1 else none

/-- A non-empty digit list read in the given radix; `none` on an empty
list or a character outside the digit alphabet. -/
def radixVal (radix : Nat) (dv : Char → Option Nat) (cs : List Char) : Option Nat :=
  if cs.isEmpty then none
  else
    cs.foldl (fun acc c =>
      match acc, dv c with
      | some a, some d => some (a * radix + d)
      | _, _ => none) (some 0)

/-- Split a character list at the first character satisfying `p`:
the part before it, and (when found) the part after it. -/
def splitFirstBy (p : Char → Bool) : List Char → List Char × Option (List Char)
  | [] => ([], none)
  | c :: rest =>
      if p c then ([], some rest)
      else
        let r := splitFirstBy p rest
        (c :: r.1, r.2)

/-- A JS unsigned decimal literal `digits [. digits] [e|E [+|-] digits]`
(at least one digit in the mantissa, at least one in an exponent), read
as an exact scaled decimal `(mantissa, exponent)`; `none` when the shape
is not that grammar (JS NaN). -/
def parseDecimal (cs : List Char) : Option (Int × Int) :=
  let me := splitFirstBy (fun c => c.toNat = 101 ∨ c.toNat = 69) cs
  let id := splitFirstBy (fun c => c.toNat = 46) me.1
  let ip := id.1
  let fp := (id.2).getD []
  if ¬ (ip.all Char.isDigit ∧ fp.all Char.isDigit) then none
  else if ip.isEmpty ∧ fp.isEmpty then none
  else
    let m : Int := (decDigitsVal (ip ++ fp) : Int)
    let e0 : Int := -(fp.length : Int)
    match me.2 with
    | none => some (m, e0)
    | some ec =>
        let se : Bool × List Char :=
          match ec with
          | c :: r =>
              if c.toNat = 45 then (true, r)
              else if c.toNat = 43 then (false, r)
              else (false, ec)
          | [] => (false, [])
        if se.2.isEmpty ∨ ¬ se.2.all Char.isDigit then none
        else
          some (m, e0 + (if se.1 then -(decDigitsVal se.2 : Int)
                         else (decDigitsVal se.2 : Int)))

/-- What may follow a sign in a JS numeric string: an unsigned decimal
literal or the word Infinity (hex/octal/binary literals take no sign). -/
def parseDecInf (cs : List Char) : Option JsNum :=
  if cs = "Infinity".toList then some JsNum.posInf
  else (parseDecimal cs).map (fun p => JsNum.num p.1 p.2)

/-- A JS numeric string with no leading sign: Infinity, a `0x`/`0o`/`0b`
radix literal, or an unsigned decimal literal. -/
def parseUnsigned (cs : List Char) : Option JsNum :=
  if cs = "Infinity".toList then some JsNum.posInf
  else
    match cs with
    | c0 :: c1 :: rest =>
        if c0.toNat = 48 ∧ (c1.toNat = 120 ∨ c1.toNat = 88) then
          (radixVal 16 hexDigit? rest).map (fun n => JsNum.num (n : Int) 0)
        else if c0.toNat = 48 ∧ (c1.toNat = 111 ∨ c1.toNat = 79) then
          (radixVal 8 octDigit? rest).map (fun n => JsNum.num (n : Int) 0)
        else if c0.toNat = 48 ∧ (c1.toNat = 98 ∨ c1.toNat = 66) then
          (radixVal 2 binDigit? rest).map (fun n => JsNum.num (n : Int) 0)
        else (parseDecimal cs).map (fun p => JsNum.num p.1 p.2)
    | _ => (parseDecimal cs).map (fun p => JsNum.num p.1 p.2)

/-- Modelled JS `Number()` on strings, per the StringNumericLiteral
grammar: whitespace is trimmed; the empty remainder is 0; an optional
sign may precede a decimal literal or Infinity; unsigned hex, octal and
binary literals are accepted; everything else is NaN (`none`).  Values
are exact scaled decimals (see `JsNum`). -/
def jsNumber (s : String) : Option JsNum :=
  let cs := ((s.toList.dropWhile jsWs).reverse.dropWhile jsWs).reverse
  match cs with
  | [] => some (JsNum.num 0 0)
  | c :: rest =>
      if c.toNat = 45 then (parseDecInf rest).map JsNum.negate
      else if c.toNat = 43 then parseDecInf rest
      else parseUnsigned cs

namespace basicUtils

/-- Modelled from the spec: `basicUtils.isValidId` (utils/basic, absent
from src/) wraps Mongo ObjectId validity — a string of exactly 24
hexadecimal characters. -/
def isValidId (s : String) : Bool :=
  s.length == 24 && s.toList.all (fun c => c.isDigit || (Char.ofNat 97 ≤ c && c ≤ Char.ofNat 102) || (Char.ofNat 65 ≤ c && c ≤ Char.ofNat 70))

/-- `isValidId` applied to the possibly-absent userId a session lookup
returns; `ObjectId.isValid(undefined)` is false. -/
def isValidIdOpt : Option String → Bool
  | none => false
  | some s => isValidId s

end basicUtils

/-- Line 57 of FilesController.js:
`fileParams.parentId !== 0 && !basicUtils.isValidId(fileParams.parentId)`. -/
def parentMalformed : PId → Bool
  | PId.root => false
  | PId.node s => ¬ basicUtils.isValidId s

namespace userUtils

/-- Modelled from the spec: `userUtils.getUser` (utils/user, absent from
src/) — a `findOne` on the Identity Store by `_id`.  `ObjectId(undefined)`
produces a fresh id that matches no stored user, so an absent session
userId resolves to no user. -/
def getUser (users : List User) : Option String → Option User
  | none => none
  | some uid => users.find? (fun u => u.id == uid)

end userUtils

namespace fileUtils

/-- Modelled from the spec: `fileUtils.getFile` (utils/file, absent from
src/) — `findOne` on the files collection by `_id`. -/
def getFile (files : List File) (fid : String) : Option File :=
  files.find? (fun f => f.id == fid)

/-- Modelled from the spec: the owner-scoped `fileUtils.getFile` with
filter `{ _id, userId }` (spec section 4.3: owner-or-nothing lookup). -/
def getFileOwned (files : List File) (fid uid : String) : Option File :=
  files.find? (fun f => f.id == fid && f.userId == uid)

/-- Modelled from the spec: `fileUtils.processFile` (utils/file, absent
from src/) — section 6: metadata output exposes
`{ id, userId, name, type, isPublic, parentId }` and never `localPath`. -/
def processFile (f : File) : FileDoc :=
  ⟨f.id, f.userId, f.name, f.type, f.isPublic, f.parentId⟩

/-- Modelled from the spec: `fileUtils.isOwnerAndPublic` (utils/file,
absent from src/) — section 4.4: `authorizeRead(file, requesterId)` is
true iff `file.isPublic == true` OR `file.userId == requesterId`. -/
def isOwnerAndPublic (f : File) (requester : Option String) : Bool :=
  f.isPublic || requester == some f.userId

/-- Modelled from the spec: `fileUtils.getFileData` (utils/file, absent
from src/) — section 4.7 step 4: read bytes from `localPath` (a size
variant selects the pre-generated file at `<localPath>_<size>`); bytes
missing on disk despite the metadata record is a not-found condition. -/
def getFileData (disk : Disk) (f : File) (size : Nat) : Except (Nat × String) String :=
  match f.localPath with
  | none => Except.error (404, "Not found")
  | some p =>
      let key := if size = 0 then p else p ++ "_" ++ toString size
      match (disk : List (String × String)).find? (fun e => e.1 == key) with
      | none => Except.error (404, "Not found")
      | some e => Except.ok e.2

end fileUtils

/-- The raw body of a POST /files request, every field possibly absent.
`parentId` absent defaults to 0; the string "0" also denotes the root. -/
structure UploadBody where
  name : Option String
  type : Option String
  data : Option String
  parentId : Option String
  isPublic : Bool
deriving DecidableEq

/-- The normalized creation payload of spec section 4.1
(`FileParams{ name, type, parentId, isPublic, data }`). -/
structure FileParams where
  name : String
  type : FType
  parentId : PId
  isPublic : Bool
  data : Option String
deriving DecidableEq

/-- Parse the raw `type` field against the admissible set
{folder, file, image}. -/
def parseType : Option String → Option FType
  | some "folder" => some FType.folder
  | some "file" => some FType.file
  | some "image" => some FType.image
  | _ => none

/-- The raw `parentId` field normalized: absent or "0" is the root. -/
def parseParent : Option String → PId
  | none => PId.root
  | some s => if s = "0" then PId.root else PId.node s

namespace fileUtils

/-- Modelled from the spec: `fileUtils.validateBody` (utils/file, absent
from src/) — section 4.1, rules checked in order with the first failure
winning: (1) `name` missing or empty is "Missing name"; (2) `type`
missing or outside {folder, file, image} is "Missing type"; (3) `type`
in {file, image} with `data` absent is "Missing data"; (4) a non-zero
`parentId` must resolve to an existing File of type folder, otherwise
"Parent not found".  Rule 4 consults the metadata snapshot `files`. -/
def validateBody (files : List File) (b : UploadBody) : Except String FileParams :=
  if jsFalsyStr b.name then Except.error "Missing name"
  else
    match parseType b.type with
    | none => Except.error "Missing type"
    | some t =>
        if t ≠ FType.folder ∧ b.data = none then Except.error "Missing data"
        else
          match parseParent b.parentId with
          | PId.root => Except.ok ⟨b.name.getD "", t, PId.root, b.isPublic, b.data⟩
          | PId.node s =>
              match getFile files s with
              | none => Except.error "Parent not found"
              | some parent =>
                  if parent.type = FType.folder then
                    Except.ok ⟨b.name.getD "", t, PId.node s, b.isPublic, b.data⟩
                  else Except.error "Parent not found"

/-- Modelled from the spec: `fileUtils.saveFile` (utils/file, absent from
src/) — sections 4.2 and 4.3: for a folder, only a metadata record is
created; otherwise the decoded content is written to durable storage
under a fresh unique name before the metadata record is committed, and a
storage failure (`diskOk = false`: disk full, permission denied) surfaces
as a server-side StorageError with no metadata record left behind.
`nextId` is the id the store assigns, `nextPath` the generated local
path. -/
def saveFile (diskOk : Bool) (nextId nextPath : String) (uid : String)
    (p : FileParams) (files : List File) (disk : Disk) :
    Except (Nat × String) (List File × Disk × FileDoc) :=
  if p.type = FType.folder then
    let f : File := ⟨nextId, uid, p.name, p.type, p.isPublic, p.parentId, none⟩
    Except.ok (files ++ [f], disk, processFile f)
  else if diskOk then
    let f : File := ⟨nextId, uid, p.name, p.type, p.isPublic, p.parentId, some nextPath⟩
    Except.ok (files ++ [f], (disk : List (String × String)) ++ [(nextPath, p.data.getD "")], processFile f)
  else Except.error (500, "StorageError")

/-- Modelled from the spec: `fileUtils.publishUnpublish` (utils/file,
absent from src/) — sections 4.3, 4.4 and 4.6: authenticate the caller
via the session (Unauthorized when the token resolves to no existing
user), then an owner-scoped lookup of the file (not-found when absent or
owned by someone else), then `updateVisibility` sets `isPublic` and
returns the updated file's metadata.  Per section 4.6 a thumbnail job
`{ fileId, userId }` is triggered when a successfully updated File has
type image; the visible handler (lines 177-204) only forwards this
util's result, so the dispatcher handoff belongs to the update path and
the enqueued jobs are returned alongside. -/
def publishUnpublish (users : List User) (files : List File)
    (sessionUid : Option String) (fileId : String) (setPublish : Bool) :
    List File × Except (Nat × String) FileDoc × List FileJob :=
  match sessionUid with
  | none => (files, Except.error (401, "Unauthorized"), [])
  | some uid =>
      match userUtils.getUser users (some uid) with
      | none => (files, Except.error (401, "Unauthorized"), [])
      | some _ =>
          if ¬ (basicUtils.isValidId fileId = true ∧ basicUtils.isValidId uid = true) then
            (files, Except.error (404, "Not found"), [])
          else
            match getFileOwned files fileId uid with
            | none => (files, Except.error (404, "Not found"), [])
            | some f =>
                let f2 := { f with isPublic := setPublish }
                (files.map (fun g => if g.id == fileId then f2 else g),
                 Except.ok (processFile f2),
                 if f2.type = FType.image then [⟨some f2.id, some f2.userId⟩] else [])

end fileUtils

namespace FilesController

/-- FilesController.postUpload (src/controllers/FilesController.js,
lines 33-84).  Returns the new files collection, the new disk, the
response, and the FileJob payloads enqueued on `fileQueue`, in order.
`sessionUid` is what `userUtils.getUserIdAndKey` resolved the token to;
`diskOk`, `nextId` and `nextPath` stand for the storage outcome and the
identifiers the stores generate. -/
def postUpload (users : List User) (files : List File) (disk : Disk)
    (sessionUid : Option String) (b : UploadBody)
    (diskOk : Bool) (nextId nextPath : String) :
    List File × Disk × Resp × List FileJob :=
  if ¬ basicUtils.isValidIdOpt sessionUid = true then
    (files, disk, ⟨401, RBody.err "Unauthorized"⟩, [])
  else
    let uid := sessionUid.getD ""
    -- line 41: `if (!userId && request.body.type === 'image')` — userId is
    -- a valid id string here, hence truthy, so this never fires; kept for
    -- faithfulness.
    let jobs0 : List FileJob :=
      if uid = "" ∧ b.type = some "image" then [⟨none, none⟩] else []
    match (users.find? (fun u => u.id == uid)) with
    | none => (files, disk, ⟨401, RBody.err "Unauthorized"⟩, jobs0)
    | some _ =>
        match fileUtils.validateBody files b with
        | Except.error msg => (files, disk, ⟨400, RBody.err msg⟩, jobs0)
        | Except.ok p =>
            -- line 57: parentId non-zero but not a well-formed ObjectId.
            if parentMalformed p.parentId then
              (files, disk, ⟨400, RBody.err "Parent not found"⟩, jobs0)
            else
              match fileUtils.saveFile diskOk nextId nextPath uid p files disk with
              | Except.error (code, msg) =>
                  (files, disk, ⟨code, RBody.err msg⟩,
                   jobs0 ++ (if b.type = some "image" then [⟨none, some uid⟩] else []))
              | Except.ok (files2, disk2, newFile) =>
                  (files2, disk2, ⟨201, RBody.doc newFile⟩,
                   jobs0 ++ (if p.type = FType.image then
                     [⟨some newFile.id, some newFile.userId⟩] else []))

/-- FilesController.getShow (src/controllers/FilesController.js, lines
93-118): authenticate, validate both ids, owner-scoped lookup, 404 on
any miss. -/
def getShow (users : List User) (files : List File)
    (sessionUid : Option String) (fileId : String) : Resp :=
  match sessionUid with
  | none => ⟨401, RBody.err "Unauthorized"⟩
  | some uid =>
      match userUtils.getUser users (some uid) with
      | none => ⟨401, RBody.err "Unauthorized"⟩
      | some _ =>
          if ¬ (basicUtils.isValidId fileId = true ∧ basicUtils.isValidId uid = true) then
            ⟨404, RBody.err "Not found"⟩
          else
            match fileUtils.getFileOwned files fileId uid with
            | none => ⟨404, RBody.err "Not found"⟩
            | some f => ⟨200, RBody.doc (fileUtils.processFile f)⟩

/-- Lines 138-139 of FilesController.js:
`let page = Number(request.query.page) || 0; if (Number.isNaN(page)) page = 0;`
An absent query parameter is `undefined`, and `Number(undefined)` is NaN.
`NaN || 0` and `0 || 0` (also `-0 || 0`) are 0; any other number,
infinities included, is truthy and kept. -/
def computePage : Option String → JsNum
  | none => JsNum.num 0 0
  | some s =>
      match jsNumber s with
      | none => JsNum.num 0 0
      | some (JsNum.num m e) => if m = 0 then JsNum.num 0 0 else JsNum.num m e
      | some j => j

/-- Modelled from the spec: the aggregation
`[{$match:{parentId}},{$skip:page*20},{$limit:20}]` run by
`fileUtils.getFilesOfParentId` (utils/file, absent from src/) against
MongoDB.  Mongo accepts only a non-negative integer-valued `$skip`; a
negative, fractional or infinite `page*20` is a query error, which per
section 7 surfaces as a server-side StorageError.  Otherwise the
children of `parentId` in insertion order, `page*20` skipped, at most 20
kept.  (`page*20` is computed exactly on the scaled decimal; JS computes
it in doubles, which agrees on the short literals this development
evaluates.) -/
def runListing (files : List File) (pid : PId) (page : JsNum) : Resp :=
  match page with
  | JsNum.num m e =>
      let sm := m * 20
      if sm < 0 ∨ ¬ scaledIsInt sm e = true then ⟨500, RBody.err "StorageError"⟩
      else
        ⟨200, RBody.docs ((((files.filter (fun f => f.parentId == pid)).drop
          (scaledToInt sm e).toNat).take 20).map fileUtils.processFile)⟩
  | _ => ⟨500, RBody.err "StorageError"⟩

/-- FilesController.getIndex (src/controllers/FilesController.js, lines
128-168): authenticate; default `parentId` to the root; a non-root
`parentId` that is not a well-formed ObjectId is answered 401 (line 143);
a well-formed one that resolves to no file or to a non-folder is
answered 200 with an empty list (line 147); otherwise paginated
children. -/
def getIndex (users : List User) (files : List File)
    (sessionUid : Option String) (qParent qPage : Option String) : Resp :=
  match userUtils.getUser users sessionUid with
  | none => ⟨401, RBody.err "Unauthorized"⟩
  | some _ =>
      -- line 135: `request.query.parentId || '0'` — undefined and the
      -- empty string are both falsy and default to the root.
      let parentId := if jsFalsyStr qParent then "0" else qParent.getD "0"
      let page := computePage qPage
      if parentId ≠ "0" then
        if ¬ basicUtils.isValidId parentId = true then ⟨401, RBody.err "Unauthorized"⟩
        else
          match fileUtils.getFile files parentId with
          | none => ⟨200, RBody.docs []⟩
          | some folder =>
              if folder.type ≠ FType.folder then ⟨200, RBody.docs []⟩
              else runListing files (PId.node parentId) page
      else runListing files PId.root page

/-- FilesController.putPublish (src/controllers/FilesController.js,
lines 177-186): delegate to publishUnpublish with `true` and forward its
result; the jobs the request enqueues are those of the update path. -/
def putPublish (users : List User) (files : List File)
    (sessionUid : Option String) (fileId : String) :
    List File × Resp × List FileJob :=
  match fileUtils.publishUnpublish users files sessionUid fileId true with
  | (files2, Except.error (code, msg), jobs) => (files2, ⟨code, RBody.err msg⟩, jobs)
  | (files2, Except.ok d, jobs) => (files2, ⟨200, RBody.doc d⟩, jobs)

/-- FilesController.putUnpublish (src/controllers/FilesController.js,
lines 195-204): same with `false`. -/
def putUnpublish (users : List User) (files : List File)
    (sessionUid : Option String) (fileId : String) :
    List File × Resp × List FileJob :=
  match fileUtils.publishUnpublish users files sessionUid fileId false with
  | (files2, Except.error (code, msg), jobs) => (files2, ⟨code, RBody.err msg⟩, jobs)
  | (files2, Except.ok d, jobs) => (files2, ⟨200, RBody.doc d⟩, jobs)

/-- FilesController.getFile (src/controllers/FilesController.js, lines
214-243): validate the id, fetch with no ownership filter, hide
existence unless public-or-owner, refuse folders with a 400, then read
the bytes (an optional size variant) from disk. -/
def getFile (files : List File) (disk : Disk)
    (sessionUid : Option String) (fileId : String) (size : Nat) : Resp :=
  if ¬ basicUtils.isValidId fileId = true then ⟨404, RBody.err "Not found"⟩
  else
    match fileUtils.getFile files fileId with
    | none => ⟨404, RBody.err "Not found"⟩
    | some file =>
        if ¬ fileUtils.isOwnerAndPublic file sessionUid = true then
          ⟨404, RBody.err "Not found"⟩
        else if file.type = FType.folder then
          ⟨400, RBody.err "A folder doesn\x27t have content"⟩
        else
          match fileUtils.getFileData disk file size with
          | Except.error (code, msg) => ⟨code, RBody.err msg⟩
          | Except.ok data => ⟨200, RBody.raw data⟩

end FilesController

namespace UsersController

/-- UsersController.postNew (src/controllers/AppController.js,
UsersController part, lines 63-109): missing email, missing password,
duplicate email, then insert (`insertOk = false` models an insert
failure, which enqueues `{}` and answers 500); on success the SHA1 hash
of the password is stored, `{ userId }` is enqueued on `userQueue`, and
`{ id, email }` is returned with 201.  `sha1` is the external hash,
`nextId` the id the store assigns. -/
def postNew (sha1 : String → String) (users : List User)
    (email password : Option String) (insertOk : Bool) (nextId : String) :
    List User × Resp × List UserJob :=
  if jsFalsyStr email then (users, ⟨400, RBody.err "Missing email"⟩, [])
  else if jsFalsyStr password then (users, ⟨400, RBody.err "Missing password"⟩, [])
  else
    let e := email.getD ""
    match users.find? (fun u => u.email == e) with
    | some _ => (users, ⟨400, RBody.err "Already exist"⟩, [])
    | none =>
        if insertOk then
          (users ++ [⟨nextId, e, sha1 (password.getD "")⟩],
           ⟨201, RBody.userOut nextId e⟩, [⟨some nextId⟩])
        else (users, ⟨500, RBody.err "Error creating user."⟩, [⟨none⟩])

end UsersController

/-! ## Concrete fixtures used by counterexamples and witnesses -/

/-- A well-formed ObjectId for the registered user. -/
def uidA : String := "aaaaaaaaaaaaaaaaaaaaaaaa"

/-- A well-formed ObjectId for a different owner. -/
def uidB : String := "bbbbbbbbbbbbbbbbbbbbbbbb"

/-- A well-formed ObjectId used as a stored file id. -/
def fidA : String := "cccccccccccccccccccccccc"

/-- A well-formed ObjectId matching no stored document. -/
def fidM : String := "dddddddddddddddddddddddd"

/-- A well-formed ObjectId handed out by the store for a fresh insert. -/
def nidA : String := "eeeeeeeeeeeeeeeeeeeeeeee"

/-- An Identity Store holding the single registered user `uidA`. -/
def specUsers : List User := [⟨uidA, "a@b.com", "h"⟩]

/-- A public folder owned by `uidB`. -/
def pubFolder : File := ⟨fidA, uidB, "pics", FType.folder, true, PId.root, none⟩

/-- A private file owned by `uidB`. -/
def privFile : File := ⟨fidA, uidB, "secret.txt", FType.file, false, PId.root, some "/tmp/files_manager/s"⟩

/-- A public file owned by `uidA` whose bytes are on disk. -/
def pubFile : File := ⟨fidA, uidA, "x.txt", FType.file, true, PId.root, some "/tmp/files_manager/x"⟩

/-- A private image owned by `uidA`. -/
def imgA : File := ⟨fidA, uidA, "cat.png", FType.image, false, PId.root, some "/tmp/files_manager/c"⟩

/-- A disk holding the bytes of `pubFile`. -/
def specDisk : Disk := [("/tmp/files_manager/x", "hello")]

/-! ## Helper lemmas -/

/-- The empty string is not a well-formed ObjectId. -/
theorem isValidId_empty : basicUtils.isValidId "" = false := by decide

/-- A well-formed ObjectId is a non-empty string. -/
theorem valid_ne_empty {s : String} (h : basicUtils.isValidId s = true) : ¬ s = "" := by
  intro he
  rw [he, isValidId_empty] at h
  exact absurd h (by decide)

/-- The modelled authorizeRead, unfolded to a disjunction. -/
theorem isOwnerAndPublic_iff (f : File) (r : Option String) :
    fileUtils.isOwnerAndPublic f r = true ↔ f.isPublic = true ∨ r = some f.userId := by
  simp [fileUtils.isOwnerAndPublic]

/-! ## Claim theorems -/

/-- Claim C1, counterexample to the claim as stated: `pubFolder` exists and
is public, so the claim predicts its raw content is returned to an
anonymous requester; the code instead answers 400 "A folder doesn\x27t
have content" — content is never returned for folders. -/
theorem C1_counterexample :
    fileUtils.getFile [pubFolder] fidA = some pubFolder
    ∧ pubFolder.isPublic = true
    ∧ FilesController.getFile [pubFolder] [] none fidA 0 =
        ⟨400, RBody.err "A folder doesn\x27t have content"⟩ := by
  refine ⟨by decide, by decide, by decide⟩

/-- Claim C1, amended: the raw content is returned exactly when F exists,
is public or owned by the requester, is not a folder, and its bytes are
present on disk; when F is absent, or F is private and the requester is
not the owner (including an anonymous requester), the operation fails
with the not-found error.  (An authorized folder gets a 400 instead, and
an authorized non-folder whose bytes are missing gets the not-found
error from the storage layer.) -/
theorem C1_content_access (files : List File) (disk : Disk) (r : Option String)
    (fid : String) (sz : Nat) :
    (∀ f d, basicUtils.isValidId fid = true →
      fileUtils.getFile files fid = some f →
      (f.isPublic = true ∨ r = some f.userId) →
      f.type ≠ FType.folder →
      fileUtils.getFileData disk f sz = Except.ok d →
      FilesController.getFile files disk r fid sz = ⟨200, RBody.raw d⟩)
    ∧ (fileUtils.getFile files fid = none →
      FilesController.getFile files disk r fid sz = ⟨404, RBody.err "Not found"⟩)
    ∧ (∀ f, fileUtils.getFile files fid = some f → f.isPublic = false →
      r ≠ some f.userId →
      FilesController.getFile files disk r fid sz = ⟨404, RBody.err "Not found"⟩)
    ∧ (∀ f, basicUtils.isValidId fid = true →
      fileUtils.getFile files fid = some f →
      (f.isPublic = true ∨ r = some f.userId) →
      f.type = FType.folder →
      FilesController.getFile files disk r fid sz =
        ⟨400, RBody.err "A folder doesn\x27t have content"⟩)
    ∧ (∀ f, basicUtils.isValidId fid = true →
      fileUtils.getFile files fid = some f →
      (f.isPublic = true ∨ r = some f.userId) →
      f.type ≠ FType.folder →
      fileUtils.getFileData disk f sz = Except.error (404, "Not found") →
      FilesController.getFile files disk r fid sz = ⟨404, RBody.err "Not found"⟩)
    ∧ (basicUtils.isValidId fid = false →
      FilesController.getFile files disk r fid sz = ⟨404, RBody.err "Not found"⟩) := by
  refine ⟨?_, ?_, ?_, ?_, ?_, ?_⟩
  · intro f d hv hf hauth hnf hd
    have hown : fileUtils.isOwnerAndPublic f r = true := (isOwnerAndPublic_iff f r).mpr hauth
    simp [FilesController.getFile, hv, hf, hown, hnf, hd]
  · intro hnone
    by_cases hv : basicUtils.isValidId fid = true
    · simp [FilesController.getFile, hv, hnone]
    · simp [FilesController.getFile, hv]
  · intro f hf hpub hne
    by_cases hv : basicUtils.isValidId fid = true
    · have hown : fileUtils.isOwnerAndPublic f r = false := by
        simp [fileUtils.isOwnerAndPublic, hpub, hne]
      simp [FilesController.getFile, hv, hf, hown]
    · simp [FilesController.getFile, hv]
  · intro f hv hf hauth hfold
    have hown : fileUtils.isOwnerAndPublic f r = true := (isOwnerAndPublic_iff f r).mpr hauth
    simp [FilesController.getFile, hv, hf, hown, hfold]
  · intro f hv hf hauth hnf hd
    have hown : fileUtils.isOwnerAndPublic f r = true := (isOwnerAndPublic_iff f r).mpr hauth
    simp [FilesController.getFile, hv, hf, hown, hnf, hd]
  · intro hv
    simp [FilesController.getFile, hv]

/-- Claim C1, witness: an anonymous request for the public `pubFile`
returns its bytes. -/
theorem C1_content_access_witness :
    FilesController.getFile [pubFile] specDisk none fidA 0 = ⟨200, RBody.raw "hello"⟩ :=
  (C1_content_access [pubFile] specDisk none fidA 0).1 pubFile "hello"
    (by decide) (by decide) (Or.inl (by decide)) (by decide) (by rfl)

/-- Claim C2: for an authenticated requester, getShow of an existing file
owned by someone else is the 404 "Not found" response, equal as a value
to the response for an id matching no file at all. -/
theorem C2_ownership_hiding (users : List User) (files : List File)
    (uid : String) (u : User) (fid fmiss : String)
    (hu : users.find? (fun x => x.id == uid) = some u)
    (hvu : basicUtils.isValidId uid = true)
    (hv : basicUtils.isValidId fid = true)
    (hvm : basicUtils.isValidId fmiss = true)
    (_hex : ∃ f ∈ files, f.id = fid)
    (hother : ∀ f ∈ files, f.id = fid → ¬ f.userId = uid)
    (hmiss : ∀ f ∈ files, ¬ f.id = fmiss) :
    FilesController.getShow users files (some uid) fid = ⟨404, RBody.err "Not found"⟩
    ∧ FilesController.getShow users files (some uid) fid =
        FilesController.getShow users files (some uid) fmiss := by
  have h1 : fileUtils.getFileOwned files fid uid = none := by
    rw [fileUtils.getFileOwned, List.find?_eq_none]
    intro f hf
    simp only [Bool.and_eq_true, beq_iff_eq, not_and]
    exact hother f hf
  have h2 : fileUtils.getFileOwned files fmiss uid = none := by
    rw [fileUtils.getFileOwned, List.find?_eq_none]
    intro f hf
    simp only [Bool.and_eq_true, beq_iff_eq, not_and]
    intro hid
    exact absurd hid (hmiss f hf)
  constructor
  · simp [FilesController.getShow, userUtils.getUser, hu, hv, hvu, h1]
  · simp [FilesController.getShow, userUtils.getUser, hu, hv, hvu, hvm, h1, h2]

/-- Claim C2, witness: `uidA` asking for `privFile` (owned by `uidB`)
gets the same not-found as for the genuinely missing id `fidM`. -/
theorem C2_ownership_hiding_witness :
    FilesController.getShow specUsers [privFile] (some uidA) fidA =
      ⟨404, RBody.err "Not found"⟩ :=
  (C2_ownership_hiding specUsers [privFile] uidA ⟨uidA, "a@b.com", "h"⟩ fidA fidM
    (by decide) (by decide) (by decide) (by decide)
    ⟨privFile, by decide, by decide⟩
    (by decide) (by decide)).1

/-- Claim C3: the code at the failing input.  A non-zero `parentId` that
is not a well-formed ObjectId does not resolve to a folder, yet getIndex
answers 401 Unauthorized (line 143 of FilesController.js) instead of the
empty 200 list its own doc comment, the spec and the claim promise; a
well-formed but unresolved id does get the empty 200 list. -/
theorem C3_listing_miss :
    FilesController.getIndex specUsers [] (some uidA) (some "xyz") none =
      ⟨401, RBody.err "Unauthorized"⟩
    ∧ FilesController.getIndex specUsers [] (some uidA) (some fidM) none =
      ⟨200, RBody.docs []⟩ := by
  refine ⟨by decide, by decide⟩

/-- Claim C4, counterexample to the claim as stated: the page parameter
"-5" is numeric and truthy, so `Number(page) || 0` keeps it; it is not
normalized to 0. -/
theorem C4_counterexample :
    FilesController.computePage (some "-5") = JsNum.num (-5) 0
    ∧ ¬ FilesController.computePage (some "-5") = JsNum.num 0 0 := by
  refine ⟨by decide, by decide⟩

/-- Claim C4, amended: a page parameter whose `Number()` value is NaN is
normalized to 0, but every other value — negative, fractional or
infinite included — is kept and its `page*20` offset handed to the
store; whenever that offset is a non-negative integer the listing
returns the parent's children at that offset, at most 20 of them
(other offsets are rejected by the store). -/
theorem C4_pagination (users : List User) (files : List File) (uid : String)
    (u : User) (qp : Option String) (m e : Int)
    (hu : users.find? (fun x => x.id == uid) = some u)
    (hp : FilesController.computePage qp = JsNum.num m e)
    (hnn : 0 ≤ m * 20) (hint : scaledIsInt (m * 20) e = true) :
    (∀ t, jsNumber t = none → FilesController.computePage (some t) = JsNum.num 0 0)
    ∧ FilesController.getIndex users files (some uid) none qp =
        ⟨200, RBody.docs ((((files.filter (fun f => f.parentId == PId.root)).drop
          (scaledToInt (m * 20) e).toNat).take 20).map fileUtils.processFile)⟩
    ∧ (((files.filter (fun f => f.parentId == PId.root)).drop
        (scaledToInt (m * 20) e).toNat).take 20).length ≤ 20 := by
  have hm : (0 : Int) ≤ m := by nlinarith
  refine ⟨?_, ?_, ?_⟩
  · intro t ht
    simp [FilesController.computePage, ht]
  · simp [FilesController.getIndex, userUtils.getUser, hu, hp,
      FilesController.runListing, hm, hint]
  · calc (((files.filter (fun f => f.parentId == PId.root)).drop
        (scaledToInt (m * 20) e).toNat).take 20).length
        ≤ 20 := List.length_take_le 20 _

/-- Claim C4, witness: page "1.5" has Number value 1.5 (scaled decimal
15·10⁻¹), kept and paged at offset 30 — past the single root child, so
the page is empty. -/
theorem C4_pagination_witness :
    FilesController.getIndex specUsers [pubFile] (some uidA) none (some "1.5") =
      ⟨200, RBody.docs []⟩ := by
  have h := (C4_pagination specUsers [pubFile] uidA ⟨uidA, "a@b.com", "h"⟩
    (some "1.5") 15 (-1) (by decide) (by decide) (by decide) (by decide)).2.1
  rw [h]
  decide

/-- Claim C5: the creation-payload rules fire in order with the first
failure winning — missing/empty name, then bad type, then missing data
for non-folders — and a validation failure is answered 400 with no
change to the metadata store or the disk and nothing enqueued. -/
theorem C5_validation_order (users : List User) (files : List File) (disk : Disk)
    (uid : String) (u : User) (b : UploadBody) (diskOk : Bool) (nid npath : String)
    (hvu : basicUtils.isValidId uid = true)
    (hu : users.find? (fun x => x.id == uid) = some u) :
    (jsFalsyStr b.name = true → fileUtils.validateBody files b = Except.error "Missing name")
    ∧ (jsFalsyStr b.name = false → parseType b.type = none →
        fileUtils.validateBody files b = Except.error "Missing type")
    ∧ (∀ t, jsFalsyStr b.name = false → parseType b.type = some t → ¬ t = FType.folder →
        b.data = none → fileUtils.validateBody files b = Except.error "Missing data")
    ∧ (∀ msg, fileUtils.validateBody files b = Except.error msg →
        FilesController.postUpload users files disk (some uid) b diskOk nid npath =
          (files, disk, ⟨400, RBody.err msg⟩, [])) := by
  refine ⟨?_, ?_, ?_, ?_⟩
  · intro hmiss
    simp [fileUtils.validateBody, hmiss]
  · intro hname htype
    simp [fileUtils.validateBody, hname, htype]
  · intro t hname htype hnf hdata
    simp [fileUtils.validateBody, hname, htype, hnf, hdata]
  · intro msg hmsg
    have hne : ¬ uid = "" := valid_ne_empty hvu
    simp [FilesController.postUpload, basicUtils.isValidIdOpt, hvu, hu, hmsg, hne]

/-- Claim C5, witness: a payload with no name is refused with
"Missing name" and postUpload mutates nothing. -/
theorem C5_validation_order_witness :
    fileUtils.validateBody [] ⟨none, some "file", some "zz", none, false⟩ =
      Except.error "Missing name"
    ∧ FilesController.postUpload specUsers [] [] (some uidA)
        ⟨none, some "file", some "zz", none, false⟩ true nidA "/p" =
      ([], [], ⟨400, RBody.err "Missing name"⟩, []) := by
  have h := C5_validation_order specUsers [] [] uidA ⟨uidA, "a@b.com", "h"⟩
    ⟨none, some "file", some "zz", none, false⟩ true nidA "/p" (by decide) (by decide)
  exact ⟨h.1 (by decide), h.2.2.2 "Missing name" (h.1 (by decide))⟩

/-- Claim C6: a create whose non-zero parentId resolves to no File of
type folder (missing id, malformed id, or a non-folder parent) fails
with 400 "Parent not found", the metadata store and the disk are
unchanged, and nothing is enqueued. -/
theorem C6_parent_missing (users : List User) (files : List File) (disk : Disk)
    (uid : String) (u : User) (b : UploadBody) (t : FType) (s : String)
    (diskOk : Bool) (nid npath : String)
    (hvu : basicUtils.isValidId uid = true)
    (hu : users.find? (fun x => x.id == uid) = some u)
    (hname : jsFalsyStr b.name = false)
    (htype : parseType b.type = some t)
    (hdata : t = FType.folder ∨ ¬ b.data = none)
    (hpid : parseParent b.parentId = PId.node s)
    (hnores : ∀ g, fileUtils.getFile files s = some g → ¬ g.type = FType.folder) :
    FilesController.postUpload users files disk (some uid) b diskOk nid npath =
      (files, disk, ⟨400, RBody.err "Parent not found"⟩, []) := by
  have hdata2 : ¬ (t ≠ FType.folder ∧ b.data = none) := by
    rcases hdata with h | h
    · intro hc; exact hc.1 h
    · intro hc; exact h hc.2
  have hval : fileUtils.validateBody files b = Except.error "Parent not found" := by
    cases hg : fileUtils.getFile files s with
    | none => simp [fileUtils.validateBody, hname, htype, hdata2, hpid, hg]
    | some parent => simp [fileUtils.validateBody, hname, htype, hdata2, hpid, hg, hnores parent hg]
  have hne : ¬ uid = "" := valid_ne_empty hvu
  simp [FilesController.postUpload, basicUtils.isValidIdOpt, hvu, hu, hval, hne]

/-- Claim C6, witness: a file create under the missing parent `fidM`
fails with "Parent not found" and persists nothing. -/
theorem C6_parent_missing_witness :
    FilesController.postUpload specUsers [] [] (some uidA)
      ⟨some "x.txt", some "file", some "zz", some fidM, false⟩ true nidA "/p" =
      ([], [], ⟨400, RBody.err "Parent not found"⟩, []) :=
  C6_parent_missing specUsers [] [] uidA ⟨uidA, "a@b.com", "h"⟩
    ⟨some "x.txt", some "file", some "zz", some fidM, false⟩ FType.file fidM true nidA "/p"
    (by decide) (by decide) (by decide) (by decide) (Or.inr (by decide)) (by decide)
    (fun g hg => by simp [fileUtils.getFile] at hg)

/-- Claim C7: a thumbnail job `{fileId, userId}` is enqueued on the file
queue when a File of type image is successfully created (postUpload) and
when one is successfully updated (publish/unpublish) — a successful
update of a non-image enqueues nothing — and after every successful
user registration a welcome job `{userId}` is enqueued on the user
queue. -/
theorem C7_job_dispatch :
    (∀ users files disk uid u b p nid npath,
      basicUtils.isValidId uid = true →
      List.find? (fun x => x.id == uid) users = some u →
      fileUtils.validateBody files b = Except.ok p →
      p.type = FType.image →
      parentMalformed p.parentId = false →
      (FilesController.postUpload users files disk (some uid) b true nid npath).2.2.2 =
        [⟨some nid, some uid⟩]
      ∧ (FilesController.postUpload users files disk (some uid) b true nid npath).2.2.1.status = 201)
    ∧ (∀ users files uid u f fid,
        List.find? (fun x => x.id == uid) users = some u →
        basicUtils.isValidId fid = true →
        basicUtils.isValidId uid = true →
        fileUtils.getFileOwned files fid uid = some f →
        ((FilesController.putPublish users files (some uid) fid).2.2 =
          (if f.type = FType.image then [⟨some f.id, some f.userId⟩] else [])
        ∧ (FilesController.putPublish users files (some uid) fid).2.1.status = 200
        ∧ (FilesController.putUnpublish users files (some uid) fid).2.2 =
          (if f.type = FType.image then [⟨some f.id, some f.userId⟩] else [])))
    ∧ (∀ sha1 users email pwd nid e,
        email = some e → ¬ e = "" → jsFalsyStr pwd = false →
        List.find? (fun x => x.email == e) users = none →
        (UsersController.postNew sha1 users email pwd true nid).2.2 = [⟨some nid⟩]
        ∧ (UsersController.postNew sha1 users email pwd true nid).2.1.status = 201) := by
  refine ⟨?_, ?_, ?_⟩
  · intro users files disk uid u b p nid npath hvu hu hok himg hline57
    have hne : ¬ uid = "" := valid_ne_empty hvu
    constructor
    · simp [FilesController.postUpload, basicUtils.isValidIdOpt, hvu, hu, hok, hline57,
        fileUtils.saveFile, fileUtils.processFile, himg, hne]
    · simp [FilesController.postUpload, basicUtils.isValidIdOpt, hvu, hu, hok, hline57,
        fileUtils.saveFile, fileUtils.processFile, himg, hne]
  · intro users files uid u f fid hu hvf hvu hf
    refine ⟨?_, ?_, ?_⟩
    · simp [FilesController.putPublish, fileUtils.publishUnpublish, userUtils.getUser,
        hu, hvf, hvu, hf]
    · simp [FilesController.putPublish, fileUtils.publishUnpublish, userUtils.getUser,
        hu, hvf, hvu, hf]
    · simp [FilesController.putUnpublish, fileUtils.publishUnpublish, userUtils.getUser,
        hu, hvf, hvu, hf]
  · intro sha1 users email pwd nid e he hne hp hfind
    subst he
    have h1 : jsFalsyStr (some e) = false := by simp [jsFalsyStr, hne]
    constructor
    · simp [UsersController.postNew, h1, hp, hfind]
    · simp [UsersController.postNew, h1, hp, hfind]

/-- Claim C7, witness: a concrete image create enqueues its thumbnail
job, a concrete publish of a stored image enqueues its thumbnail job,
and a concrete registration enqueues its welcome job. -/
theorem C7_job_dispatch_witness :
    (FilesController.postUpload specUsers [] [] (some uidA)
       ⟨some "cat.png", some "image", some "zz", none, false⟩ true nidA "/p").2.2.2 =
      [⟨some nidA, some uidA⟩]
    ∧ (FilesController.putPublish specUsers [imgA] (some uidA) fidA).2.2 =
      [⟨some fidA, some uidA⟩]
    ∧ (UsersController.postNew (fun s => s) [] (some "a@b.com") (some "pw") true nidA).2.2 =
      [⟨some nidA⟩] := by
  refine ⟨(C7_job_dispatch.1 specUsers [] [] uidA ⟨uidA, "a@b.com", "h"⟩
      ⟨some "cat.png", some "image", some "zz", none, false⟩
      ⟨"cat.png", FType.image, PId.root, false, some "zz"⟩ nidA "/p"
      (by decide) (by decide) (by rfl) (by decide) (by decide)).1, ?_,
    (C7_job_dispatch.2.2 (fun s => s) [] (some "a@b.com") (some "pw") nidA "a@b.com"
      rfl (by decide) (by decide) (by rfl)).1⟩
  have h := (C7_job_dispatch.2.1 specUsers [imgA] uidA ⟨uidA, "a@b.com", "h"⟩ imgA fidA
    (by decide) (by decide) (by decide) (by decide)).1
  rw [h]
  decide

/-- Claim C8: a content request that passes the existence/visibility
check and targets a folder is answered with the explicit 400 error that
folders carry no content, a response distinct from the 404 not-found. -/
theorem C8_folder_refusal (files : List File) (disk : Disk) (r : Option String)
    (fid : String) (sz : Nat) (f : File)
    (hv : basicUtils.isValidId fid = true)
    (hf : fileUtils.getFile files fid = some f)
    (hauth : fileUtils.isOwnerAndPublic f r = true)
    (hfold : f.type = FType.folder) :
    FilesController.getFile files disk r fid sz =
      ⟨400, RBody.err "A folder doesn\x27t have content"⟩
    ∧ FilesController.getFile files disk r fid sz ≠ ⟨404, RBody.err "Not found"⟩ := by
  have h : FilesController.getFile files disk r fid sz =
      ⟨400, RBody.err "A folder doesn\x27t have content"⟩ := by
    simp [FilesController.getFile, hv, hf, hauth, hfold]
  exact ⟨h, by rw [h]; decide⟩

/-- Claim C8, witness: an anonymous content request for the public
folder `pubFolder`. -/
theorem C8_folder_refusal_witness :
    FilesController.getFile [pubFolder] [] none fidA 7 =
      ⟨400, RBody.err "A folder doesn\x27t have content"⟩ :=
  (C8_folder_refusal [pubFolder] [] none fidA 7 pubFolder
    (by decide) (by decide) (by decide) (by decide)).1

/-- Claim C9: a registration whose email is already present in the
Identity Store fails with 400 "Already exist", the store is unchanged,
and nothing is enqueued. -/
theorem C9_duplicate_email (sha1 : String → String) (users : List User)
    (email pwd : Option String) (insertOk : Bool) (nid e : String) (u : User)
    (he : email = some e) (hne : ¬ e = "")
    (hp : jsFalsyStr pwd = false)
    (hdup : users.find? (fun x => x.email == e) = some u) :
    UsersController.postNew sha1 users email pwd insertOk nid =
      (users, ⟨400, RBody.err "Already exist"⟩, []) := by
  subst he
  have h1 : jsFalsyStr (some e) = false := by simp [jsFalsyStr, hne]
  simp [UsersController.postNew, h1, hp, hdup]

/-- Claim C9, witness: re-registering `a@b.com` is refused. -/
theorem C9_duplicate_email_witness :
    UsersController.postNew (fun s => s) specUsers (some "a@b.com") (some "pw") true nidA =
      (specUsers, ⟨400, RBody.err "Already exist"⟩, []) :=
  C9_duplicate_email (fun s => s) specUsers (some "a@b.com") (some "pw") true nidA
    "a@b.com" ⟨uidA, "a@b.com", "h"⟩ rfl (by decide) (by decide) (by decide)

/-- Claim C10: when the save step fails, an upload whose request-body
type is image enqueues a job carrying only `{ userId }` on the file
queue and the error is returned with nothing persisted; a failed
non-image upload enqueues no job. -/
theorem C10_failed_save_jobs (users : List User) (files : List File) (disk : Disk)
    (uid : String) (u : User) (b : UploadBody) (p : FileParams) (nid npath : String)
    (hvu : basicUtils.isValidId uid = true)
    (hu : users.find? (fun x => x.id == uid) = some u)
    (hok : fileUtils.validateBody files b = Except.ok p)
    (hnf : ¬ p.type = FType.folder)
    (hline57 : parentMalformed p.parentId = false) :
    (b.type = some "image" →
      FilesController.postUpload users files disk (some uid) b false nid npath =
        (files, disk, ⟨500, RBody.err "StorageError"⟩, [⟨none, some uid⟩]))
    ∧ (¬ b.type = some "image" →
      FilesController.postUpload users files disk (some uid) b false nid npath =
        (files, disk, ⟨500, RBody.err "StorageError"⟩, [])) := by
  have hne : ¬ uid = "" := valid_ne_empty hvu
  constructor
  · intro himg
    simp [FilesController.postUpload, basicUtils.isValidIdOpt, hvu, hu, hok, hline57,
      fileUtils.saveFile, hnf, hne, himg]
  · intro himg
    simp [FilesController.postUpload, basicUtils.isValidIdOpt, hvu, hu, hok, hline57,
      fileUtils.saveFile, hnf, hne, himg]

/-- Claim C10, witness: a failing image upload enqueues `{ userId }`
only and mutates nothing. -/
theorem C10_failed_save_jobs_witness :
    FilesController.postUpload specUsers [] [] (some uidA)
      ⟨some "cat.png", some "image", some "zz", none, false⟩ false nidA "/p" =
      ([], [], ⟨500, RBody.err "StorageError"⟩, [⟨none, some uidA⟩]) :=
  (C10_failed_save_jobs specUsers [] [] uidA ⟨uidA, "a@b.com", "h"⟩
    ⟨some "cat.png", some "image", some "zz", none, false⟩
    ⟨"cat.png", FType.image, PId.root, false, some "zz"⟩ nidA "/p"
    (by decide) (by decide) (by rfl) (by decide) (by decide)).1 rfl
